import Mathlib

/-!
Shallow embedding of the Imagery-QC repository (src/Create_COG.py and
src/Check_Corrupt_Jpg.py) and verification of its specification claims.

The scripts delegate raster work to an external library (GDAL); here each
external call is a parameter (an oracle function) supplied to the embedded
batch loops, while all control flow, string manipulation, skip checks and
error logging are translated faithfully from the Python source.
-/

set_option autoImplicit false

deriving instance DecidableEq for Except

/-! ## Python path helpers (os.path.basename, os.path.splitext) -/

/-- Characters of `cs` after the last path separator, as in
`os.path.basename` on a POSIX path. -/
def basenameChars (cs : List Char) : List Char :=
  cs.foldl (fun acc c => if c = '/' then [] else acc ++ [c]) []

/-- Index of the last occurrence of `c` in the list, if any. -/
def lastIdxOf (c : Char) : List Char → Option Nat
  | [] => none
  | x :: xs =>
    match lastIdxOf c xs with
    | some i => some (i + 1)
    | none => if x = c then some 0 else none

/-- The root part of `os.path.splitext` applied to a basename: everything
before the last dot, except that a run of leading dots never starts an
extension (so `.bashrc` keeps its full name). -/
def splitextRoot (b : String) : String :=
  let cs := b.toList
  match lastIdxOf '.' cs with
  | none => b
  | some i => if (cs.take i).any (fun c => c ≠ '.') then ⟨cs.take i⟩ else b

/-- `os.path.basename` on a POSIX path string. -/
def pyBasename (p : String) : String :=
  ⟨basenameChars p.toList⟩

/-- Derived output name used by both batch loops in Create_COG.py:
`f'{os.path.splitext(os.path.basename(file))[0]}.tif'`. -/
def outName (file : String) : String :=
  splitextRoot (pyBasename file) ++ ".tif"

/-! ## Tokenization and substring search used by the projection resolver -/

/-- Split a character list on `'_'`, matching Python `str.split('_')`
(the empty string yields one empty token). -/
def splitTok : List Char → List (List Char)
  | [] => [[]]
  | c :: rest =>
    let r := splitTok rest
    if c = '_' then [] :: r
    else
      match r with
      | [] => [[c]]
      | t :: ts => (c :: t) :: ts

/-- `pat.isPrefixOf`-based substring test on character lists. -/
def subOccurs (pat : List Char) : List Char → Bool
  | [] => pat.isEmpty
  | c :: t => pat.isPrefixOf (c :: t) || subOccurs pat t

/-- Python `pat in s` substring membership on strings. -/
def strContains (s pat : String) : Bool :=
  subOccurs pat.toList s.toList

/-- The underscore-delimited tokens of the extension-stripped basename of a
filename, as scanned by `epsg_from_filename`
(`os.path.splitext(os.path.basename(filename))[0].split('_')`). -/
def projTokens (filename : String) : List String :=
  (splitTok (splitextRoot (pyBasename filename)).toList).map (fun t => ⟨t⟩)

/-! ## The static projection table and the configuration record -/

/-- The `PROJECTIONS()` constant of Create_COG.py: an association of
GeoBC filename tokens to EPSG codes. -/
def PROJECTIONS : List (String × Nat) :=
  [("utm08", 3155), ("utm8", 3155), ("utm09", 3156), ("utm9", 3156),
   ("utm10", 3157), ("utm11", 2955), ("bcalb", 3005)]

/-- The mutable attributes of the `CloudOptimizedGeotiff` object, as set in
`__init__`. `epsg` is `None` until `epsg_from_filename` assigns it. -/
structure COGState where
  predictor : Nat
  epsg : Option Nat
  compress_method : String
  compress_level : Nat
  overview_levels : List Nat
  resampling : String
  blockxsize : Nat
  blockysize : Nat
deriving DecidableEq, Repr

/-- The attribute values assigned by `CloudOptimizedGeotiff.__init__`. -/
def initState : COGState :=
  { predictor := 3
    epsg := none
    compress_method := "DEFLATE"
    compress_level := 6
    overview_levels := [2, 4]
    resampling := "cubic"
    blockxsize := 512
    blockysize := 512 }

/-- `set_jpeg_quality`: appends ` -co JPEG_QUALITY={q}` to the compression
method string. The Python default argument is 75, passed explicitly here. -/
def set_jpeg_quality (s : COGState) (jpeg_quality : Nat) : COGState :=
  { s with compress_method :=
      s.compress_method ++ " -co JPEG_QUALITY=" ++ toString jpeg_quality }

/-- Python `str(x)` on an optional numeric attribute: `str(None)` is the
text `None`. -/
def pyStr (x : Option Nat) : String :=
  match x with
  | none => "None"
  | some n => toString n

/-- `create_translate_options`: mutates the object when the compression
method is the JPEG marker, then builds the gdal_translate option string.
Returns the updated object state together with the option string that is
handed to `gdal.TranslateOptions(gdal.ParseCommandLine(...))`. -/
def create_translate_options (s : COGState) : COGState × String :=
  let s := if s.compress_method = "JPEG" then set_jpeg_quality s 75 else s
  let trans_str :=
    "-of GTiff -a_srs EPSG:" ++ pyStr s.epsg ++
    " -co PREDICTOR=" ++ toString s.predictor ++ " -q" ++
    " -co TILED=YES -co NUM_THREADS=ALL_CPUS" ++
    " -co COMPRESS=" ++ s.compress_method ++
    " -co ZLEVEL=" ++ toString s.compress_level
  (s, trans_str)

/-! ## The filename-to-projection resolver -/

/-- The token scan inside `epsg_from_filename`: at the first token that
contains `utm` or `bcalb` as a substring the code looks the token up in the
`PROJECTIONS()` dictionary and breaks; a missing key raises `KeyError`
(modelled by `Except.error ()`), and a scan with no such token leaves
`self.epsg` at its previous value. -/
def epsgScan (epsg : Option Nat) : List String → Except Unit (Option Nat)
  | [] => .ok epsg
  | s :: rest =>
    if strContains s "utm" || strContains s "bcalb" then
      match PROJECTIONS.lookup s with
      | some v => .ok (some v)
      | none => .error ()
    else epsgScan epsg rest

/-- `epsg_from_filename`: splits the extension-stripped basename on `_`
and runs the token scan, producing the new value of `self.epsg` or a
`KeyError`. -/
def epsg_from_filename (epsg : Option Nat) (filename : String) :
    Except Unit (Option Nat) :=
  epsgScan epsg (projTokens filename)

/-! ## The batch loops of Create_COG.py

The output directory's contents are an association list from file name to
file content (a later entry with the same name shadows an earlier one, so
prepending models an overwrite).  The external `gdal.Translate` call is an
oracle `tr : String → Except String String` mapping the input path either
to the content it writes at the derived output name or to the text of the
exception it raises.  The loops record, besides the directory contents,
the error-log entries appended (each pair `(p, e)` stands for the appended
line `p ++ "\t" ++ e ++ "\n"`) and the list of inputs for which a
translate call was issued. -/

/-- The state threaded through a batch loop: the object's configuration,
the output directory contents, the error-log entries appended so far, and
the translate calls issued so far. -/
structure BatchSt where
  cfg : COGState
  fs : List (String × String)
  log : List (String × String)
  calls : List String
deriving DecidableEq, Repr

/-- One iteration of the loop in `batch_compress_and_tile`: skip when the
derived output name exists, otherwise resolve the EPSG code from the
filename (outside the try block, so a `KeyError` propagates), build the
translate options (possibly mutating the compression method), and invoke
the translate oracle, logging a failure to
`compression_and_tiling_errors.txt` instead of re-raising it. -/
def compress_one (tr : String → Except String String) (b : BatchSt)
    (file : String) : Except Unit BatchSt :=
  let out_name := outName file
  if (b.fs.lookup out_name).isSome then .ok b
  else
    match epsg_from_filename b.cfg.epsg file with
    | .error e => .error e
    | .ok ep =>
      let cfg := (create_translate_options { b.cfg with epsg := ep }).1
      let b := { b with cfg := cfg, calls := b.calls ++ [file] }
      match tr file with
      | .ok content => .ok { b with fs := (out_name, content) :: b.fs }
      | .error msg => .ok { b with log := b.log ++ [(file, msg)] }

/-- `batch_compress_and_tile` over a file list.  The Boolean is true when
the batch was aborted by an uncaught exception (the resolver's
`KeyError`); the returned state is the state at the moment of the abort,
since the Python exception leaves all side effects so far in place. -/
def batch_compress_and_tile (tr : String → Except String String) :
    List String → BatchSt → BatchSt × Bool
  | [], b => (b, false)
  | f :: rest, b =>
    match compress_one tr b f with
    | .error _ => (b, true)
    | .ok b2 => batch_compress_and_tile tr rest b2

/-- One iteration of the loop in `batch_create_cog`: skip when the derived
output name exists in the COG directory, otherwise invoke the translate
oracle with the fixed COG options, logging a failure to
`COG_creation_errors.txt`. -/
def cog_one (tr : String → Except String String) (b : BatchSt)
    (file : String) : BatchSt :=
  let out_name := outName file
  if (b.fs.lookup out_name).isSome then b
  else
    let b := { b with calls := b.calls ++ [file] }
    match tr file with
    | .ok content => { b with fs := (out_name, content) :: b.fs }
    | .error msg => { b with log := b.log ++ [(file, msg)] }

/-- The file loop of `batch_create_cog`; every translate failure is caught
per file, so the loop itself never aborts. -/
def cog_loop (tr : String → Except String String) :
    List String → BatchSt → BatchSt
  | [], b => b
  | f :: rest, b => cog_loop tr rest (cog_one tr b f)

/-- The gdal_translate option string built at the top of
`batch_create_cog`. -/
def cog_trans_str (s : COGState) : String :=
  "-co TILED=YES -co COPY_SRC_OVERVIEWS=YES -co COMPRESS=" ++
  s.compress_method ++ " -co NUM_THREADS=ALL_CPUS -co BLOCKXSIZE=" ++
  toString s.blockxsize ++ " -co BLOCKYSIZE=" ++ toString s.blockysize

/-- `batch_create_cog`: builds the COG options, then unconditionally
`os.mkdir`s the `COG` subdirectory of the output directory — which raises
`FileExistsError` before any file is processed when that subdirectory
already exists — and otherwise runs the file loop inside the freshly
created (hence empty) directory.  `outFs` is the contents of the output
directory. -/
def batch_create_cog (tr : String → Except String String) (s : COGState)
    (outFs : List (String × String)) (files : List String) :
    Except String BatchSt :=
  let _ := cog_trans_str s
  if (outFs.lookup "COG").isSome then .error "FileExistsError"
  else .ok (cog_loop tr files { cfg := s, fs := [], log := [], calls := [] })

/-! ## The overview builder -/

/-- `batch_create_overviews`: for each file, `gdal.Open` it and call
`BuildOverviews('CUBIC', self.overview_levels)`; both external calls are
folded into one oracle.  There is no try block, so the first failure
propagates and the remaining files are never touched.  Returns the list of
`(file, resampling, levels)` requests issued for the files processed
before any failure, and the error that aborted the loop, if any. -/
def batch_create_overviews (openBuild : String → Except String Unit)
    (s : COGState) : List String → List (String × String × List Nat) × Option String
  | [] => ([], none)
  | f :: rest =>
    match openBuild f with
    | .error e => ([], some e)
    | .ok _ =>
      let r := batch_create_overviews openBuild s rest
      ((f, "CUBIC", s.overview_levels) :: r.1, r.2)

/-! ## The driver -/

/-- Iterating a Python `str` yields its characters, each itself a
one-character `str`; `run_cog_conversion` passes the output directory
string `odir` where `batch_create_overviews` expects a file list, so the
overview stage iterates exactly these items. -/
def pyStrIter (s : String) : List String :=
  s.toList.map (fun c => String.mk [c])

/-- One stage of the driver, carrying the items that stage iterates (or,
for cleanup, the glob pattern it deletes). -/
inductive Stage where
  | convert (items : List String)
  | overviews (items : List String)
  | assembleCog (items : List String)
  | cleanup (pat : String)
deriving DecidableEq, Repr

/-- The dataflow of `run_cog_conversion` after the directory dialogs: the
input list is the concatenation of three globs over the input directory;
the convert stage receives it; the overview stage receives the output
directory string `odir` itself (iterated character by character); the COG
stage receives a fresh glob of `odir/*.tif`; cleanup removes `odir/*.tif`.
`globFn` is the filesystem oracle mapping a glob pattern to its matches,
and `os.path.join` is modelled for POSIX paths. -/
def run_cog_conversion (globFn : String → List String) (idir odir : String) :
    List Stage :=
  let flist := globFn (idir ++ "/*.asc") ++ globFn (idir ++ "/*.dem") ++
    globFn (idir ++ "/*.tif")
  [ .convert flist,
    .overviews (pyStrIter odir),
    .assembleCog (globFn (odir ++ "/*.tif")),
    .cleanup (odir ++ "/*.tif") ]

/-! ## The corrupt-JPEG scanner (Check_Corrupt_Jpg.py) -/

/-- The module-level loop of Check_Corrupt_Jpg.py.  `openJpg` is the
oracle for `gdal.Open` plus the metadata reads, returning the
`RuntimeError` text on a corrupt file.  When a file fails, the handler
clause `except (RuntimeError, e):` is evaluated — but the name `e` is
unbound at that point, so evaluating the clause raises `NameError` and the
handler body (the CSV write) never runs: the scan aborts.  Returns the
files attempted, the CSV rows written, and the error that aborted the
scan, if any. -/
def check_corrupt_jpg (openJpg : String → Except String Unit) :
    List String → List String × List (String × String) × Option String
  | [] => ([], [], none)
  | f :: rest =>
    match openJpg f with
    | .ok _ =>
      let r := check_corrupt_jpg openJpg rest
      (f :: r.1, r.2.1, r.2.2)
    | .error _ => ([f], [], some "NameError: name e is not defined")

/-- A batch loop as entered from the driver: the given configuration and
directory contents, with nothing logged and no call issued yet. -/
def batchInit (s : COGState) (fs : List (String × String)) : BatchSt :=
  { cfg := s, fs := fs, log := [], calls := [] }

/-! ## Concrete oracles used by witnesses and counterexamples -/

/-- A translate oracle that always succeeds, writing empty content. -/
def trAlwaysOk : String → Except String String := fun _ => .ok ""

/-- A translate oracle that always raises, echoing the input path in the
error text. -/
def trFail : String → Except String String :=
  fun f => .error ("cannot open " ++ f)

/-- An open-and-build-overviews oracle failing on one specific file. -/
def ovOracle : String → Except String Unit :=
  fun f => if f = "b.tif" then .error "ERROR 1" else .ok ()

/-- A gdal.Open oracle for the JPEG scanner, failing on one corrupt
file. -/
def jpgOracle : String → Except String Unit :=
  fun f => if f = "bad.jpg" then .error "RuntimeError: unrecognized format"
    else .ok ()

/-- A concrete glob oracle: one DEM in the input directory, one converted
TIFF in the output directory. -/
def demoGlob : String → List String :=
  fun pat =>
    if pat = "in/*.dem" then ["in/a_utm10.dem"]
    else if pat = "out/*.tif" then ["out/a_utm10.tif"]
    else []

/-! ## Helper lemmas -/

theorem lookup_cons_ne {β : Type} {k a : String} (v : β)
    (l : List (String × β)) (h : k ≠ a) :
    ((k, v) :: l).lookup a = l.lookup a := by
  have hb : (a == k) = false := beq_eq_false_iff_ne.mpr (Ne.symm h)
  simp [List.lookup, hb]

/-- What one converter iteration can do to the state, seen from a fixed
file `f` whose derived output is already present. -/
theorem compress_one_inv (tr : String → Except String String)
    (b : BatchSt) (g f : String) (b2 : BatchSt)
    (h : compress_one tr b g = .ok b2)
    (hb : (b.fs.lookup (outName f)).isSome = true) :
    b2.fs.lookup (outName f) = b.fs.lookup (outName f) ∧
    (∀ x ∈ b2.calls, x ∈ b.calls ∨ x ≠ f) ∧
    (∀ p ∈ b2.log, p ∈ b.log ∨ p.1 ≠ f) := by
  unfold compress_one at h
  by_cases hg : (b.fs.lookup (outName g)).isSome = true
  · rw [if_pos hg] at h
    injection h with h2
    subst h2
    exact ⟨rfl, fun x hx => Or.inl hx, fun p hp => Or.inl hp⟩
  · rw [if_neg hg] at h
    have hne : outName g ≠ outName f := by
      intro hEq
      rw [hEq] at hg
      exact hg hb
    have hgf : g ≠ f := fun hEq => hne (by rw [hEq])
    cases hepsg : epsg_from_filename b.cfg.epsg g with
    | error e =>
      rw [hepsg] at h
      exact absurd h (by simp)
    | ok ep =>
      rw [hepsg] at h
      cases htr : tr g with
      | ok content =>
        rw [htr] at h
        injection h with h2
        subst h2
        refine ⟨lookup_cons_ne content b.fs hne, ?_, fun p hp => Or.inl hp⟩
        intro x hx
        rcases List.mem_append.mp hx with hl | hr
        · exact Or.inl hl
        · exact Or.inr (by rw [List.mem_singleton.mp hr]; exact hgf)
      | error msg =>
        rw [htr] at h
        injection h with h2
        subst h2
        refine ⟨rfl, ?_, ?_⟩
        · intro x hx
          rcases List.mem_append.mp hx with hl | hr
          · exact Or.inl hl
          · exact Or.inr (by rw [List.mem_singleton.mp hr]; exact hgf)
        · intro p hp
          rcases List.mem_append.mp hp with hl | hr
          · exact Or.inl hl
          · exact Or.inr (by rw [List.mem_singleton.mp hr]; exact hgf)

/-- What one COG-assembler iteration can do to the state, seen from a
fixed file `f` whose derived output is already present. -/
theorem cog_one_inv (tr : String → Except String String)
    (b : BatchSt) (g f : String)
    (hb : (b.fs.lookup (outName f)).isSome = true) :
    (cog_one tr b g).fs.lookup (outName f) = b.fs.lookup (outName f) ∧
    (∀ x ∈ (cog_one tr b g).calls, x ∈ b.calls ∨ x ≠ f) ∧
    (∀ p ∈ (cog_one tr b g).log, p ∈ b.log ∨ p.1 ≠ f) := by
  unfold cog_one
  by_cases hg : (b.fs.lookup (outName g)).isSome = true
  · rw [if_pos hg]
    exact ⟨rfl, fun x hx => Or.inl hx, fun p hp => Or.inl hp⟩
  · rw [if_neg hg]
    have hne : outName g ≠ outName f := by
      intro hEq
      rw [hEq] at hg
      exact hg hb
    have hgf : g ≠ f := fun hEq => hne (by rw [hEq])
    cases htr : tr g with
    | ok content =>
      refine ⟨lookup_cons_ne content b.fs hne, ?_, fun p hp => Or.inl hp⟩
      intro x hx
      rcases List.mem_append.mp hx with hl | hr
      · exact Or.inl hl
      · exact Or.inr (by rw [List.mem_singleton.mp hr]; exact hgf)
    | error msg =>
      refine ⟨rfl, ?_, ?_⟩
      · intro x hx
        rcases List.mem_append.mp hx with hl | hr
        · exact Or.inl hl
        · exact Or.inr (by rw [List.mem_singleton.mp hr]; exact hgf)
      · intro p hp
        rcases List.mem_append.mp hp with hl | hr
        · exact Or.inl hl
        · exact Or.inr (by rw [List.mem_singleton.mp hr]; exact hgf)

/-- Invariant of the converter loop: a name present in the directory keeps
its content, and no call or log entry for a file deriving that name is
added. -/
theorem compress_and_tile_inv (tr : String → Except String String)
    (f : String) :
    ∀ (files : List String) (b : BatchSt),
      ((b.fs.lookup (outName f)).isSome = true) →
      ((batch_compress_and_tile tr files b).1.fs.lookup (outName f)
          = b.fs.lookup (outName f)) ∧
      (∀ x ∈ (batch_compress_and_tile tr files b).1.calls,
          x ∈ b.calls ∨ x ≠ f) ∧
      (∀ p ∈ (batch_compress_and_tile tr files b).1.log,
          p ∈ b.log ∨ p.1 ≠ f) := by
  intro files
  induction files with
  | nil =>
    intro b hb
    refine ⟨rfl, ?_, ?_⟩ <;> intro x hx <;> exact Or.inl hx
  | cons g rest ih =>
    intro b hb
    cases hco : compress_one tr b g with
    | error e =>
      have hstep : batch_compress_and_tile tr (g :: rest) b = (b, true) := by
        simp [batch_compress_and_tile, hco]
      rw [hstep]
      refine ⟨rfl, ?_, ?_⟩ <;> intro x hx <;> exact Or.inl hx
    | ok b2 =>
      have hstep : batch_compress_and_tile tr (g :: rest) b
          = batch_compress_and_tile tr rest b2 := by
        simp [batch_compress_and_tile, hco]
      rw [hstep]
      obtain ⟨s1, s2, s3⟩ := compress_one_inv tr b g f b2 hco hb
      have hb2 : (b2.fs.lookup (outName f)).isSome = true := by
        rw [s1]; exact hb
      obtain ⟨h1, h2, h3⟩ := ih b2 hb2
      refine ⟨by rw [h1]; exact s1, ?_, ?_⟩
      · intro x hx
        rcases h2 x hx with hmem | hne2
        · rcases s2 x hmem with hmem2 | hne2
          · exact Or.inl hmem2
          · exact Or.inr hne2
        · exact Or.inr hne2
      · intro p hp
        rcases h3 p hp with hmem | hne2
        · rcases s3 p hmem with hmem2 | hne2
          · exact Or.inl hmem2
          · exact Or.inr hne2
        · exact Or.inr hne2

/-- The same invariant for the COG assembler's file loop. -/
theorem cog_loop_inv (tr : String → Except String String) (f : String) :
    ∀ (files : List String) (b : BatchSt),
      ((b.fs.lookup (outName f)).isSome = true) →
      ((cog_loop tr files b).fs.lookup (outName f)
          = b.fs.lookup (outName f)) ∧
      (∀ x ∈ (cog_loop tr files b).calls, x ∈ b.calls ∨ x ≠ f) ∧
      (∀ p ∈ (cog_loop tr files b).log, p ∈ b.log ∨ p.1 ≠ f) := by
  intro files
  induction files with
  | nil =>
    intro b hb
    refine ⟨rfl, ?_, ?_⟩ <;> intro x hx <;> exact Or.inl hx
  | cons g rest ih =>
    intro b hb
    have hstep : cog_loop tr (g :: rest) b = cog_loop tr rest (cog_one tr b g) :=
      rfl
    rw [hstep]
    obtain ⟨s1, s2, s3⟩ := cog_one_inv tr b g f hb
    have hb2 : ((cog_one tr b g).fs.lookup (outName f)).isSome = true := by
      rw [s1]; exact hb
    obtain ⟨h1, h2, h3⟩ := ih (cog_one tr b g) hb2
    refine ⟨by rw [h1]; exact s1, ?_, ?_⟩
    · intro x hx
      rcases h2 x hx with hmem | hne2
      · rcases s2 x hmem with hmem2 | hne2
        · exact Or.inl hmem2
        · exact Or.inr hne2
      · exact Or.inr hne2
    · intro p hp
      rcases h3 p hp with hmem | hne2
      · rcases s3 p hmem with hmem2 | hne2
        · exact Or.inl hmem2
        · exact Or.inr hne2
      · exact Or.inr hne2

/-- A file whose derived output name exists is skipped without any state
change. -/
theorem compress_one_skip (tr : String → Except String String)
    (b : BatchSt) (g : String)
    (hg : (b.fs.lookup (outName g)).isSome = true) :
    compress_one tr b g = .ok b := by
  unfold compress_one
  rw [if_pos hg]

/-- A file whose derived output name is absent gets exactly one translate
call appended, and only the entry at its own derived name can change in
the directory. -/
theorem compress_one_processed (tr : String → Except String String)
    (b : BatchSt) (g : String) (b2 : BatchSt)
    (h : compress_one tr b g = .ok b2)
    (hg : ¬ (b.fs.lookup (outName g)).isSome = true) :
    b2.calls = b.calls ++ [g] ∧
    (∀ n, n ≠ outName g → b2.fs.lookup n = b.fs.lookup n) := by
  unfold compress_one at h
  rw [if_neg hg] at h
  cases hepsg : epsg_from_filename b.cfg.epsg g with
  | error e =>
    rw [hepsg] at h
    exact absurd h (by simp)
  | ok ep =>
    rw [hepsg] at h
    cases htr : tr g with
    | ok content =>
      rw [htr] at h
      injection h with h2
      subst h2
      exact ⟨rfl, fun n hn => lookup_cons_ne content b.fs (Ne.symm hn)⟩
    | error msg =>
      rw [htr] at h
      injection h with h2
      subst h2
      exact ⟨rfl, fun n _ => rfl⟩

/-- Call-count invariant of the converter loop: when the run is not
aborted and the derived output names are pairwise distinct, every file
without a pre-existing output contributes exactly one translate call. -/
theorem compress_calls_count (tr : String → Except String String) :
    ∀ (files : List String) (b : BatchSt),
      ((files.map outName).Nodup) →
      (batch_compress_and_tile tr files b).2 = false →
      (batch_compress_and_tile tr files b).1.calls.length +
        files.countP (fun g => (b.fs.lookup (outName g)).isSome) =
      b.calls.length + files.length := by
  intro files
  induction files with
  | nil =>
    intro b _ _
    simp [batch_compress_and_tile]
  | cons g rest ih =>
    intro b hnd habort
    have hnd2 : outName g ∉ rest.map outName ∧ (rest.map outName).Nodup := by
      rw [List.map_cons, List.nodup_cons] at hnd
      exact hnd
    cases hco : compress_one tr b g with
    | error e =>
      have hstep : batch_compress_and_tile tr (g :: rest) b = (b, true) := by
        simp [batch_compress_and_tile, hco]
      rw [hstep] at habort
      exact absurd habort (by simp)
    | ok b2 =>
      have hstep : batch_compress_and_tile tr (g :: rest) b
          = batch_compress_and_tile tr rest b2 := by
        simp [batch_compress_and_tile, hco]
      rw [hstep] at habort ⊢
      by_cases hg : (b.fs.lookup (outName g)).isSome = true
      · have hb2 : b2 = b := by
          have := compress_one_skip tr b g hg
          rw [this] at hco
          injection hco with h2
          exact h2.symm
        subst hb2
        have hcount : (g :: rest).countP
            (fun x => (b2.fs.lookup (outName x)).isSome)
            = rest.countP (fun x => (b2.fs.lookup (outName x)).isSome) + 1 := by
          rw [List.countP_cons]
          simp [hg]
        rw [hcount]
        have := ih b2 hnd2.2 habort
        simp only [List.length_cons]
        omega
      · obtain ⟨hcalls, hfs⟩ := compress_one_processed tr b g b2 hco hg
        have hcount : (g :: rest).countP
            (fun x => (b.fs.lookup (outName x)).isSome)
            = rest.countP (fun x => (b.fs.lookup (outName x)).isSome) := by
          rw [List.countP_cons]
          simp [hg]
        have hrest : rest.countP (fun x => (b2.fs.lookup (outName x)).isSome)
            = rest.countP (fun x => (b.fs.lookup (outName x)).isSome) := by
          refine List.countP_congr ?_
          intro x hx
          have hxne : outName x ≠ outName g := by
            intro hEq
            exact hnd2.1 (hEq ▸ List.mem_map_of_mem outName hx)
          rw [hfs (outName x) hxne]
        have := ih b2 hnd2.2 habort
        rw [hrest] at this
        rw [hcount]
        have hlen : b2.calls.length = b.calls.length + 1 := by
          rw [hcalls, List.length_append]
          rfl
        simp only [List.length_cons]
        omega

/-- `epsgScan` returns the table entry of the first token containing
`utm` or `bcalb`, when that token is a key of the table. -/
theorem epsgScan_found (e0 : Option Nat) (pre : List String) (t : String)
    (rest : List String) (code : Nat)
    (hpre : ∀ g ∈ pre, (strContains g "utm" || strContains g "bcalb") = false)
    (ht : (strContains t "utm" || strContains t "bcalb") = true)
    (hl : PROJECTIONS.lookup t = some code) :
    epsgScan e0 (pre ++ t :: rest) = .ok (some code) := by
  induction pre with
  | nil =>
    simp only [List.nil_append, epsgScan, ht, if_true, hl]
  | cons g pre2 ih =>
    have hgf : (strContains g "utm" || strContains g "bcalb") = false :=
      hpre g (List.mem_cons_self g pre2)
    have hpre2 : ∀ x ∈ pre2, (strContains x "utm" || strContains x "bcalb") = false :=
      fun x hx => hpre x (List.mem_cons_of_mem g hx)
    simp only [List.cons_append, epsgScan, hgf]
    simp only [Bool.false_eq_true, if_false]
    exact ih hpre2

/-- `epsgScan` leaves the previous value in place when no token contains
`utm` or `bcalb`. -/
theorem epsgScan_nomatch (e0 : Option Nat) :
    ∀ (l : List String),
      (∀ t ∈ l, (strContains t "utm" || strContains t "bcalb") = false) →
      epsgScan e0 l = .ok e0 := by
  intro l
  induction l with
  | nil => intro _; rfl
  | cons t rest ih =>
    intro h
    have ht : (strContains t "utm" || strContains t "bcalb") = false :=
      h t (List.mem_cons_self t rest)
    have hrest : ∀ x ∈ rest, (strContains x "utm" || strContains x "bcalb") = false :=
      fun x hx => h x (List.mem_cons_of_mem t hx)
    simp only [epsgScan, ht, Bool.false_eq_true, if_false]
    exact ih hrest

/-! ## Claim theorems -/

/-- Claim C1: for every input file whose derived output name (same
basename with a `.tif` extension) is already present in the output
directory, both the batch converter and the COG assembler's file loop
issue no translate call for that file, leave the existing output entry
unchanged, and append no error-log entry for it. -/
theorem converter_and_cog_skip_existing :
    (∀ (tr : String → Except String String) (files : List String)
        (s : COGState) (fs0 : List (String × String)) (f : String),
      (fs0.lookup (outName f)).isSome = true →
      ((batch_compress_and_tile tr files (batchInit s fs0)).1.fs.lookup (outName f)
          = fs0.lookup (outName f)) ∧
      f ∉ (batch_compress_and_tile tr files (batchInit s fs0)).1.calls ∧
      (∀ e, (f, e) ∉ (batch_compress_and_tile tr files (batchInit s fs0)).1.log)) ∧
    (∀ (tr : String → Except String String) (files : List String)
        (s : COGState) (fs0 : List (String × String)) (f : String),
      (fs0.lookup (outName f)).isSome = true →
      ((cog_loop tr files (batchInit s fs0)).fs.lookup (outName f)
          = fs0.lookup (outName f)) ∧
      f ∉ (cog_loop tr files (batchInit s fs0)).calls ∧
      (∀ e, (f, e) ∉ (cog_loop tr files (batchInit s fs0)).log)) := by
  constructor
  · intro tr files s fs0 f h
    obtain ⟨h1, h2, h3⟩ := compress_and_tile_inv tr f files (batchInit s fs0) h
    refine ⟨h1, ?_, ?_⟩
    · intro hmem
      rcases h2 f hmem with hin | hne
      · exact absurd hin (List.not_mem_nil f)
      · exact hne rfl
    · intro e hmem
      rcases h3 (f, e) hmem with hin | hne
      · exact absurd hin (List.not_mem_nil _)
      · exact hne rfl
  · intro tr files s fs0 f h
    obtain ⟨h1, h2, h3⟩ := cog_loop_inv tr f files (batchInit s fs0) h
    refine ⟨h1, ?_, ?_⟩
    · intro hmem
      rcases h2 f hmem with hin | hne
      · exact absurd hin (List.not_mem_nil f)
      · exact hne rfl
    · intro e hmem
      rcases h3 (f, e) hmem with hin | hne
      · exact absurd hin (List.not_mem_nil _)
      · exact hne rfl

/-- Concrete instance of the skip property: with `x.tif` already present,
converting `d/x.dem` changes nothing. -/
theorem converter_and_cog_skip_existing_witness :
    (([("x.tif", "orig")] : List (String × String)).lookup (outName "d/x.dem")).isSome = true ∧
    ((batch_compress_and_tile trAlwaysOk ["d/x.dem"]
        (batchInit initState [("x.tif", "orig")])).1.fs.lookup (outName "d/x.dem")
      = [("x.tif", "orig")].lookup (outName "d/x.dem")) ∧
    "d/x.dem" ∉ (batch_compress_and_tile trAlwaysOk ["d/x.dem"]
        (batchInit initState [("x.tif", "orig")])).1.calls ∧
    ((cog_loop trAlwaysOk ["d/x.dem"]
        (batchInit initState [("x.tif", "orig")])).fs.lookup (outName "d/x.dem")
      = [("x.tif", "orig")].lookup (outName "d/x.dem")) :=
  ⟨by decide,
   (converter_and_cog_skip_existing.1 trAlwaysOk ["d/x.dem"] initState
      [("x.tif", "orig")] "d/x.dem" (by decide)).1,
   (converter_and_cog_skip_existing.1 trAlwaysOk ["d/x.dem"] initState
      [("x.tif", "orig")] "d/x.dem" (by decide)).2.1,
   (converter_and_cog_skip_existing.2 trAlwaysOk ["d/x.dem"] initState
      [("x.tif", "orig")] "d/x.dem" (by decide)).1⟩

/-- Claim C2: a translate failure on one file appends exactly one log
entry carrying that file's path and the error text, and the loop then
continues with the remaining files exactly as if nothing happened — in
both the converter and the COG assembler's file loop. -/
theorem translate_failure_isolated :
    (∀ (tr : String → Except String String) (f : String) (rest : List String)
        (b : BatchSt) (msg : String) (ep : Option Nat),
      (b.fs.lookup (outName f)).isSome = false →
      epsg_from_filename b.cfg.epsg f = .ok ep →
      tr f = .error msg →
      batch_compress_and_tile tr (f :: rest) b =
        batch_compress_and_tile tr rest
          { b with
            cfg := (create_translate_options { b.cfg with epsg := ep }).1,
            log := b.log ++ [(f, msg)],
            calls := b.calls ++ [f] }) ∧
    (∀ (tr : String → Except String String) (f : String) (rest : List String)
        (b : BatchSt) (msg : String),
      (b.fs.lookup (outName f)).isSome = false →
      tr f = .error msg →
      cog_loop tr (f :: rest) b =
        cog_loop tr rest
          { b with log := b.log ++ [(f, msg)], calls := b.calls ++ [f] }) := by
  constructor
  · intro tr f rest b msg ep h hepsg htr
    have hneg : ¬ ((b.fs.lookup (outName f)).isSome = true) := by
      rw [h]; exact Bool.false_ne_true
    have hco : compress_one tr b f = .ok
        { b with
          cfg := (create_translate_options { b.cfg with epsg := ep }).1,
          log := b.log ++ [(f, msg)],
          calls := b.calls ++ [f] } := by
      unfold compress_one
      rw [if_neg hneg, hepsg, htr]
    simp [batch_compress_and_tile, hco]
  · intro tr f rest b msg h htr
    have hneg : ¬ ((b.fs.lookup (outName f)).isSome = true) := by
      rw [h]; exact Bool.false_ne_true
    have hco : cog_one tr b f =
        { b with log := b.log ++ [(f, msg)], calls := b.calls ++ [f] } := by
      unfold cog_one
      rw [if_neg hneg, htr]
    show cog_loop tr rest (cog_one tr b f) = _
    rw [hco]

/-- Concrete instance of per-file failure isolation: the failure of
`a/x.dem` adds one log entry and the batch proceeds to `b/y.dem`. -/
theorem translate_failure_isolated_witness :
    batch_compress_and_tile trFail ["a/x.dem", "b/y.dem"] (batchInit initState []) =
      batch_compress_and_tile trFail ["b/y.dem"]
        { batchInit initState [] with
          cfg := (create_translate_options
            { (batchInit initState []).cfg with epsg := none }).1,
          log := (batchInit initState []).log ++ [("a/x.dem", "cannot open a/x.dem")],
          calls := (batchInit initState []).calls ++ ["a/x.dem"] } ∧
    cog_loop trFail ["a/x.dem", "b/y.dem"] (batchInit initState []) =
      cog_loop trFail ["b/y.dem"]
        { batchInit initState [] with
          log := (batchInit initState []).log ++ [("a/x.dem", "cannot open a/x.dem")],
          calls := (batchInit initState []).calls ++ ["a/x.dem"] } :=
  ⟨translate_failure_isolated.1 trFail "a/x.dem" ["b/y.dem"] (batchInit initState [])
      "cannot open a/x.dem" none (by decide) (by decide) (by decide),
   translate_failure_isolated.2 trFail "a/x.dem" ["b/y.dem"] (batchInit initState [])
      "cannot open a/x.dem" (by decide) (by decide)⟩

/-- Claim C3, counterexample: `utmx_utm10.tif` carries the recognized
token `utm10` (worth 3157), yet the resolver raises a `KeyError` on the
earlier token `utmx` — it never sets the spatial reference. -/
theorem epsg_resolver_counterexample :
    epsg_from_filename none "utmx_utm10.tif" = .error () ∧
    "utm10" ∈ projTokens "utmx_utm10.tif" ∧
    PROJECTIONS.lookup "utm10" = some 3157 := by decide

/-- Claim C3 (amended): when the first token containing `utm` or `bcalb`
is itself one of the seven recognized spellings, the resolver sets the
spatial reference to that token's table code — so among recognized tokens
the leftmost one wins — and the table maps the seven spellings to their
fixed EPSG codes. -/
theorem epsg_resolver_first_recognized :
    (∀ (e0 : Option Nat) (fn : String) (pre : List String) (t : String)
        (rest : List String) (code : Nat),
      projTokens fn = pre ++ t :: rest →
      (∀ g ∈ pre, (strContains g "utm" || strContains g "bcalb") = false) →
      (strContains t "utm" || strContains t "bcalb") = true →
      PROJECTIONS.lookup t = some code →
      epsg_from_filename e0 fn = .ok (some code)) ∧
    PROJECTIONS.lookup "utm08" = some 3155 ∧
    PROJECTIONS.lookup "utm8" = some 3155 ∧
    PROJECTIONS.lookup "utm09" = some 3156 ∧
    PROJECTIONS.lookup "utm9" = some 3156 ∧
    PROJECTIONS.lookup "utm10" = some 3157 ∧
    PROJECTIONS.lookup "utm11" = some 2955 ∧
    PROJECTIONS.lookup "bcalb" = some 3005 := by
  constructor
  · intro e0 fn pre t rest code htok hpre ht hl
    show epsgScan e0 (projTokens fn) = .ok (some code)
    rw [htok]
    exact epsgScan_found e0 pre t rest code hpre ht hl
  · decide

/-- Concrete instance: `bc_092_utm10_2020.dem` resolves to 3157 through
the leftmost (and only) recognized token. -/
theorem epsg_resolver_first_recognized_witness :
    projTokens "bc_092_utm10_2020.dem" = ["bc", "092", "utm10", "2020"] ∧
    epsg_from_filename none "bc_092_utm10_2020.dem" = .ok (some 3157) :=
  ⟨by decide,
   epsg_resolver_first_recognized.1 none "bc_092_utm10_2020.dem" ["bc", "092"]
     "utm10" ["2020"] 3157 (by decide) (by decide) (by decide) (by decide)⟩

/-- Claim C4, counterexample: no token of `a_utm12.tif` is one of the
seven recognized spellings, yet the resolver raises a `KeyError` (the
token `utm12` contains `utm` and misses the dictionary) instead of
staying silent. -/
theorem epsg_nomatch_counterexample :
    epsg_from_filename none "a_utm12.tif" = .error () ∧
    (∀ p ∈ PROJECTIONS, p.1 ∉ projTokens "a_utm12.tif") := by decide

/-- Claim C4 (amended): when no underscore-delimited token contains `utm`
or `bcalb` as a substring, the resolver raises nothing and leaves the
spatial reference unchanged (in particular still undefined when it was
undefined). -/
theorem epsg_nomatch_silent :
    ∀ (e0 : Option Nat) (fn : String),
      (∀ t ∈ projTokens fn, (strContains t "utm" || strContains t "bcalb") = false) →
      epsg_from_filename e0 fn = .ok e0 := by
  intro e0 fn h
  show epsgScan e0 (projTokens fn) = .ok e0
  exact epsgScan_nomatch e0 (projTokens fn) h

/-- Concrete instance: `a_b.tif` has no projection-like token and the
resolver leaves the undefined reference undefined without error. -/
theorem epsg_nomatch_silent_witness :
    (∀ t ∈ projTokens "a_b.tif",
      (strContains t "utm" || strContains t "bcalb") = false) ∧
    epsg_from_filename none "a_b.tif" = .ok none :=
  ⟨by decide, epsg_nomatch_silent none "a_b.tif" (by decide)⟩

/-- Claim C5, counterexample: two inputs sharing the basename `x` derive
the same output name, so the second is skipped after the first succeeds —
one translate call happens where the claim demands `N − M = 2 − 0 = 2`. -/
theorem translate_count_counterexample :
    (batch_compress_and_tile trAlwaysOk ["a/x.dem", "b/x.asc"]
        (batchInit initState [])).1.calls = ["a/x.dem"] ∧
    (["a/x.dem", "b/x.asc"].countP
        (fun g => (([] : List (String × String)).lookup (outName g)).isSome)) = 0 ∧
    ¬ ((batch_compress_and_tile trAlwaysOk ["a/x.dem", "b/x.asc"]
        (batchInit initState [])).1.calls.length
      = ["a/x.dem", "b/x.asc"].length - 0) := by decide

/-- Claim C5 (amended): over a run that is not aborted by the resolver
and whose input files have pairwise distinct derived output names,
the converter issues exactly `N − M` translate calls, where `M` counts
the inputs whose derived output already exists. -/
theorem translate_count_exact :
    ∀ (tr : String → Except String String) (files : List String)
      (s : COGState) (fs0 : List (String × String)),
      ((files.map outName).Nodup) →
      (batch_compress_and_tile tr files (batchInit s fs0)).2 = false →
      (batch_compress_and_tile tr files (batchInit s fs0)).1.calls.length +
        files.countP (fun g => (fs0.lookup (outName g)).isSome)
      = files.length := by
  intro tr files s fs0 hnd habort
  have h := compress_calls_count tr files (batchInit s fs0) hnd habort
  simpa [batchInit] using h

/-- Concrete instance: of two inputs with distinct derived names, one
already converted, exactly one translate call happens. -/
theorem translate_count_exact_witness :
    ((["a.dem", "b.dem"].map outName).Nodup) ∧
    (batch_compress_and_tile trAlwaysOk ["a.dem", "b.dem"]
        (batchInit initState [("a.tif", "z")])).1.calls.length +
      ["a.dem", "b.dem"].countP
        (fun g => (([("a.tif", "z")] : List (String × String)).lookup (outName g)).isSome)
      = ["a.dem", "b.dem"].length :=
  ⟨by decide,
   translate_count_exact trAlwaysOk ["a.dem", "b.dem"] initState [("a.tif", "z")]
     (by decide) (by decide)⟩

/-- Claim C6: the driver does run convert, overviews, COG assembly and
cleanup in that order, but the overview stage does not receive the list
of rasters produced by the convert stage — `run_cog_conversion` hands it
the output-directory string `odir`, so it iterates that string's
characters (here `o`, `u`, `t`), not the converted file list. -/
theorem driver_overview_stage_items :
    run_cog_conversion demoGlob "in" "out" =
      [Stage.convert ["in/a_utm10.dem"],
       Stage.overviews ["o", "u", "t"],
       Stage.assembleCog ["out/a_utm10.tif"],
       Stage.cleanup "out/*.tif"] ∧
    (["o", "u", "t"] : List String) ≠ ["out/a_utm10.tif"] := by decide

/-- Claim C7: the overview builder requests overview construction with
the cubic kernel at reduction factors `[2, 4]` for each file preceding
the first failure, and that failure is not caught — it propagates and
none of the remaining files is touched. -/
theorem overview_failure_propagates :
    ∀ (ob : String → Except String Unit) (pre : List String) (f : String)
      (rest : List String) (e : String),
      (∀ g ∈ pre, ob g = .ok ()) →
      ob f = .error e →
      batch_create_overviews ob initState (pre ++ f :: rest) =
        (pre.map (fun g => (g, "CUBIC", [2, 4])), some e) := by
  intro ob pre f rest e
  induction pre with
  | nil =>
    intro _ hf
    simp [batch_create_overviews, hf]
  | cons g pre2 ih =>
    intro hpre hf
    have hg : ob g = .ok () := hpre g (List.mem_cons_self g pre2)
    have hpre2 : ∀ x ∈ pre2, ob x = .ok () :=
      fun x hx => hpre x (List.mem_cons_of_mem g hx)
    have hrec := ih hpre2 hf
    have hlev : initState.overview_levels = [2, 4] := rfl
    simp [batch_create_overviews, hg, hrec, hlev]

/-- Concrete instance: the failure on `b.tif` aborts the overview batch
after `a.tif` was processed with kernel CUBIC and levels `[2, 4]`, and
`c.tif` is never reached. -/
theorem overview_failure_propagates_witness :
    ovOracle "b.tif" = .error "ERROR 1" ∧
    batch_create_overviews ovOracle initState ["a.tif", "b.tif", "c.tif"] =
      ([("a.tif", "CUBIC", [2, 4])], some "ERROR 1") :=
  ⟨by decide,
   overview_failure_propagates ovOracle ["a.tif"] "b.tif" ["c.tif"] "ERROR 1"
     (by decide) (by decide)⟩

/-- Claim C8: building translate options only ever changes the
configuration when the compression method is the lossy `JPEG` marker, in
which case the quality parameter is appended to it — and the append can
happen at most once, because a second build call leaves the configuration
fixed. -/
theorem translate_options_mutation :
    ∀ s : COGState,
      (create_translate_options s).1 =
        (if s.compress_method = "JPEG"
          then { s with compress_method := "JPEG -co JPEG_QUALITY=75" }
          else s) ∧
      (create_translate_options (create_translate_options s).1).1 =
        (create_translate_options s).1 := by
  intro s
  by_cases h : s.compress_method = "JPEG"
  · have hts : toString (75 : Nat) = "75" := by decide
    constructor
    · simp [create_translate_options, set_jpeg_quality, h, hts]
    · simp [create_translate_options, set_jpeg_quality, h, hts]
  · constructor
    · simp [create_translate_options, h]
    · simp [create_translate_options, h]

/-- Claim C9: the scanner's handler clause `except (RuntimeError, e):`
reads the unbound name `e`, so a corrupt JPEG aborts the whole scan with
a `NameError`: no CSV row is written and later files are never visited —
instead of the claimed catch-log-continue behavior. -/
theorem corrupt_jpg_handler_aborts :
    check_corrupt_jpg jpgOracle ["a.jpg", "bad.jpg", "c.jpg"] =
      (["a.jpg", "bad.jpg"], [], some "NameError: name e is not defined") := by
  decide

/-- Claim C10: when the `COG` subdirectory of the output directory
already exists, the unconditional `os.mkdir` raises `FileExistsError`
before the file loop starts, so no file is translated and the
skip-if-exists branch is never reached. -/
theorem cog_mkdir_exists_aborts :
    ∀ (tr : String → Except String String) (s : COGState)
      (outFs : List (String × String)) (files : List String),
      (outFs.lookup "COG").isSome = true →
      batch_create_cog tr s outFs files = .error "FileExistsError" := by
  intro tr s outFs files h
  simp [batch_create_cog, h]

/-- Concrete instance: a pre-existing `COG` entry makes the assembler
fail up front. -/
theorem cog_mkdir_exists_aborts_witness :
    (([("COG", "")] : List (String × String)).lookup "COG").isSome = true ∧
    batch_create_cog trAlwaysOk initState [("COG", "")] ["a.tif"] =
      .error "FileExistsError" :=
  ⟨by decide,
   cog_mkdir_exists_aborts trAlwaysOk initState [("COG", "")] ["a.tif"] (by decide)⟩
